import Mathlib

/-!
# DCF77 decoder of the nixie clock (src/nixie/dcf77.c)

A shallow embedding of the decoder's static variables and functions and of the clock tick
inc_time of src/nixie/nixie.c, followed by theorems about them.

Conventions of the embedding.
* Every C variable is a natural number; a store into a `uint8_t` reduces modulo 256,
  `uint32_t` subtraction is taken modulo 2^32.
* Comparisons are made the way C makes them: a `uint8_t` operand is promoted to `int`
  first, so `g_bit_index == -1` compares an integer in 0..255 with the integer -1.
* The object `g_time` points to is the field `time_obj`; `emitted` is instrumentation
  (not a variable of the program) that logs every value `decode` leaves in that object.
* `g_buffer` is the list of its eight bytes.  The store of `dcf77_add_bit` goes through the
  bounds-checked `buffer_store`; where the offset lies outside the array the eight bytes
  are left as they are and the function goes on, the other statics being taken not to
  alias the stray byte.  That is one layout among others: `dcf77_add_bit_with` is the same
  function with the effect of the stray store on the statics as a parameter, and
  `declaration_order_store` is that effect when the statics follow g_buffer in declaration
  order, where the store reaches g_last_flank and hour_tens.
-/

namespace Dcf77

/-- The struct time_t of time.h; all five fields are uint8_t. -/
structure time_t where
  month : Nat
  day : Nat
  hours : Nat
  minutes : Nat
  seconds : Nat
deriving DecidableEq, Repr

/-- The static variables of dcf77.c, the object behind g_time and the log of decode. -/
structure State where
  time_obj : time_t
  emitted : List time_t
  g_buffer : List Nat
  g_last_flank : Nat
  g_last : Nat
  g_bit_index : Nat
  g_parity : Nat
  minute_tens : Nat
  minute_ones : Nat
  hour_tens : Nat
  hour_ones : Nat
  day_tens : Nat
  day_ones : Nat
  month_ones : Nat
  month_tens : Nat
deriving DecidableEq, Repr

/-- Conversion of a C int to uint8_t. -/
def to_u8 (i : Int) : Nat := (i % 256).toNat

/-- Subtraction of two uint32_t values. -/
def sub_u32 (a b : Nat) : Nat := (((a : Int) - (b : Int)) % 4294967296).toNat

/-- The statics as initialised at lines 9-16, after dcf77_init has stored the address of
an object holding t. -/
def init (t : time_t) : State :=
  { time_obj := t, emitted := [], g_buffer := [0, 0, 0, 0, 0, 0, 0, 0],
    g_last_flank := 0, g_last := 0, g_bit_index := to_u8 (-1), g_parity := 0,
    minute_tens := 0, minute_ones := 0, hour_tens := 0, hour_ones := 0,
    day_tens := 0, day_ones := 0, month_ones := 0, month_tens := 0 }

/-- Lines 25-28. -/
def dcf77_scrap (s : State) : State :=
  { s with g_bit_index := to_u8 (-1) }

/-- Lines 31-35, as a function from the old byte to the new one. -/
def add_bit (val bit field_length : Nat) : Nat :=
  ((val >>> 1) &&& (bit <<< (field_length - 1))) % 256

/-- Lines 38-45. -/
def decode (s : State) : State :=
  let t : time_t :=
    { seconds := 58,
      minutes := (s.minute_tens * 10 + s.minute_ones) % 256,
      hours := (s.hour_tens * 10 + s.hour_ones) % 256,
      day := (s.day_tens * 10 + s.day_ones) % 256,
      month := (s.month_tens * 10 + s.month_ones) % 256 }
  { s with time_obj := t, emitted := s.emitted ++ [t] }

/-- A bounds-checked read-modify-write of one byte of an array: none when the offset is
not inside the array. -/
def buffer_store (buf : List Nat) (idx : Nat) (f : Nat → Nat) : Option (List Nat) :=
  if idx < buf.length then some (buf.set idx (f (buf.getD idx 0) % 256)) else none

/-- The offset and the new-byte function of the store at lines 54-57. For a byte v, the C
expression v & ~m with m a single bit below 256 is v with that bit cleared, v &&& (255 - m). -/
def buffer_write (buf : List Nat) (i bit : Nat) : Option (List Nat) :=
  if bit ≠ 0 then
    buffer_store buf (i <<< 3) (fun v => v ||| (1 <<< (i &&& 7)))
  else
    buffer_store buf (i <<< 3) (fun v => v &&& (255 - (1 <<< (i &&& 7))))

/-- Lines 61-76: the chain that folds the bit into the accumulator of the cursor position. -/
def fold_field (s : State) (bit : Nat) : State :=
  if 21 ≤ s.g_bit_index ∧ s.g_bit_index ≤ 24 then
    { s with minute_ones := add_bit s.minute_ones bit 4 }
  else if 25 ≤ s.g_bit_index ∧ s.g_bit_index ≤ 27 then
    { s with minute_tens := add_bit s.minute_tens bit 3 }
  else if 29 ≤ s.g_bit_index ∧ s.g_bit_index ≤ 32 then
    { s with hour_ones := add_bit s.hour_ones bit 4 }
  else if s.g_bit_index = 33 ∨ s.g_bit_index = 34 then
    { s with hour_tens := add_bit s.hour_tens bit 2 }
  else if 36 ≤ s.g_bit_index ∧ s.g_bit_index ≤ 39 then
    { s with day_ones := add_bit s.day_ones bit 4 }
  else if s.g_bit_index = 40 ∨ s.g_bit_index = 41 then
    { s with day_tens := add_bit s.day_tens bit 2 }
  else if 45 ≤ s.g_bit_index ∧ s.g_bit_index ≤ 48 then
    { s with month_ones := add_bit s.month_ones bit 4 }
  else if s.g_bit_index = 49 then
    { s with month_tens := add_bit s.month_tens bit 1 }
  else s

/-- Lines 48-93, in a layout where the byte of a store outside g_buffer belongs to none of
the statics modelled here; dcf77_add_bit_with leaves the layout open. -/
def dcf77_add_bit (s : State) (bit : Nat) : State :=
  if (s.g_bit_index : Int) = -1 then s
  else
    let s1 : State :=
      { s with g_buffer := (buffer_write s.g_buffer s.g_bit_index bit).getD s.g_buffer }
    let s2 : State := { s1 with g_parity := if s1.g_parity ≠ bit then 1 else 0 }
    let s3 : State := fold_field s2 bit
    let s4 : State :=
      if s3.g_bit_index = 28 ∨ s3.g_bit_index = 35 ∨ s3.g_bit_index = 58 then
        (if bit ≠ s3.g_parity then dcf77_scrap s3 else { s3 with g_parity := 0 })
      else s3
    let s5 : State := if 58 ≤ s4.g_bit_index then dcf77_scrap (decode s4) else s4
    { s5 with g_bit_index := (s5.g_bit_index + 1) % 256 }

/-- Lines 96-109. -/
def on_rising_flank (s : State) (time : Nat) : State :=
  let s1 : State :=
    if (s.g_bit_index : Int) ≠ -1 then
      let time_low := sub_u32 time s.g_last_flank
      if 7 < time_low ∧ time_low < 13 then dcf77_add_bit s 0
      else if 17 < time_low ∧ time_low < 23 then dcf77_add_bit s 1
      else dcf77_scrap s
    else s
  { s1 with g_last_flank := time }

/-- Lines 112-118. -/
def on_falling_flank (s : State) (time : Nat) : State :=
  let time_high := sub_u32 time s.g_last_flank
  let s1 : State := if 190 < time_high ∧ time_high < 210 then { s with g_bit_index := 0 } else s
  { s1 with g_last_flank := time }

/-- Lines 121-129. -/
def dcf77_update (s : State) (signal time : Nat) : State :=
  let s1 : State :=
    if s.g_last = 0 ∧ signal ≠ 0 then on_rising_flank s time
    else if s.g_last ≠ 0 ∧ signal = 0 then on_falling_flank s time
    else s
  { s1 with g_last := signal }

/-- Feeding a list of bits, first to last, through dcf77_add_bit. -/
def feed_bits (s : State) (bits : List Nat) : State :=
  bits.foldl dcf77_add_bit s

/-- The array bits of the _TEST main, lines 140-162. -/
def test_bits : List Nat :=
  [0, 0, 0, 0, 0, 0, 0, 0, 0, 0, 0, 0, 0, 0, 0, 0, 0, 0, 0, 0,
   1,
   1, 0, 0, 1,
   1, 1, 0,
   0,
   0, 0, 0, 1,
   1, 0,
   0,
   0, 1, 0, 0,
   1, 0,
   1, 0, 0,
   1, 1, 1, 0,
   1, 0,
   0, 0, 1, 0,
   1, 0, 0, 0,
   1]

/-- The loop body of the _TEST main, lines 166-172, run over a list of bits from the
timestamp given: a falling flank, the pulse of 20 or 10 ticks, a rising flank, and the rest
of the second. The timestamp is a uint32_t. -/
def feed_pulses (s : State) (time : Nat) (bits : List Nat) : State × Nat :=
  bits.foldl
    (fun (st : State × Nat) (b : Nat) =>
      let s1 := on_falling_flank st.1 st.2
      let t1 := (st.2 + (if b ≠ 0 then 20 else 10)) % 4294967296
      let s2 := on_rising_flank s1 t1
      (s2, (t1 + (if b ≠ 0 then 98 else 99)) % 4294967296))
    (s, time)

/-- One call of an entry point of dcf77.c with its arguments. -/
inductive Call where
  | update (signal time : Nat)
  | rising (time : Nat)
  | falling (time : Nat)
  | add (bit : Nat)
  | scrap
deriving DecidableEq, Repr

/-- The effect of one call on the statics. -/
def apply_call (s : State) : Call → State
  | Call.update signal time => dcf77_update s signal time
  | Call.rising time => on_rising_flank s time
  | Call.falling time => on_falling_flank s time
  | Call.add bit => dcf77_add_bit s bit
  | Call.scrap => dcf77_scrap s

/-- The effect of a sequence of calls, first to last. -/
def run_calls (s : State) (cs : List Call) : State :=
  cs.foldl apply_call s

/-- The initialiser of the clock's time in nixie.c, line 174: 1 January, 13:37:00. -/
def power_on_time : time_t :=
  { month := 1, day := 1, hours := 13, minutes := 37, seconds := 0 }

/-! ### The frame format as the specification words it

The next definitions follow the wording of the specification (the position table and the
parity rule), not the source: they say what a conforming frame is, so that the decoder can
be run on one. -/

/-- The number whose binary digits, least significant first, are the w bits from position lo. -/
def bits_value (bits : List Nat) (lo w : Nat) : Nat :=
  ((List.range w).map (fun i => bits.getD (lo + i) 0 * 2 ^ i)).sum

/-- The XOR of the bits at positions lo..hi. -/
def xor_range (bits : List Nat) (lo hi : Nat) : Nat :=
  (((List.range (hi + 1 - lo)).map (fun i => bits.getD (lo + i) 0)).sum) % 2

/-- A 59-bit frame that carries the given minute, hour, day and month as BCD digits at the
positions of the table, with the three parity bits set to the XOR of their groups. -/
def conforming (bits : List Nat) (minute hour day month : Nat) : Prop :=
  bits.length = 59 ∧ (∀ b ∈ bits, b ≤ 1) ∧
  bits_value bits 21 4 = minute % 10 ∧ bits_value bits 25 3 = minute / 10 ∧
  bits_value bits 29 4 = hour % 10 ∧ bits_value bits 33 2 = hour / 10 ∧
  bits_value bits 36 4 = day % 10 ∧ bits_value bits 40 2 = day / 10 ∧
  bits_value bits 45 4 = month % 10 ∧ bits_value bits 49 1 = month / 10 ∧
  bits.getD 28 0 = xor_range bits 21 27 ∧
  bits.getD 35 0 = xor_range bits 29 34 ∧
  bits.getD 58 0 = xor_range bits 36 57

instance conforming_decidable (bits : List Nat) (minute hour day month : Nat) :
    Decidable (conforming bits minute hour day month) := by
  unfold conforming; infer_instance

/-- A conforming frame for 18:59 on 12 July: the bits of the _TEST main where the table
gives them a meaning (minute tens written 1,0,1 for the digit 5, month tens one bit wide). -/
def frame_18_59 : List Nat :=
  [0, 0, 0, 0, 0, 0, 0, 0, 0, 0, 0, 0, 0, 0, 0, 0, 0, 0, 0, 0,
   1,
   1, 0, 0, 1,
   1, 0, 1,
   0,
   0, 0, 0, 1,
   1, 0,
   0,
   0, 1, 0, 0,
   1, 0,
   1, 0, 0,
   1, 1, 1, 0,
   0,
   0, 0, 1, 0,
   1, 0, 0, 0,
   0]

/-- The frame with the bit at position p inverted and every other bit as it was. -/
def flip_bit (bits : List Nat) (p : Nat) : List Nat :=
  bits.set p (1 - bits.getD p 0)

/-- The decoder right after a sync gap seen from power-on: a falling flank 200 ticks after
the initial last-flank time 0. -/
def synced : State := on_falling_flank (init power_on_time) 200

/-- A state reached by a timing fault in the middle of a frame: sync gap, one long pulse
(bit 1 at position 0), then a rising flank only 5 ticks after the falling one. -/
def after_timing_fault : State :=
  run_calls (init power_on_time)
    [Call.falling 200, Call.rising 220, Call.falling 300, Call.rising 305]

/-- The value decode leaves in the time object when all accumulators are zero. -/
def zero_time : time_t :=
  { month := 0, day := 0, hours := 0, minutes := 0, seconds := 58 }

/-- The decoder after a sync gap and the first n bits of a frame. -/
def after_bits (bits : List Nat) (n : Nat) : State :=
  feed_bits synced (bits.take n)

/-- The positions of the minute, hour and date groups: 21..27, 29..34 and 36..57. -/
def group_positions : List Nat :=
  (List.range 7).map (fun i => 21 + i) ++ (List.range 6).map (fun i => 29 + i)
    ++ (List.range 22).map (fun i => 36 + i)

/-- A state whose accumulators hold the digits of 18:59 on 12 July. -/
def digits_18_59 : State :=
  { synced with
    minute_ones := 9, minute_tens := 5, hour_ones := 8, hour_tens := 1,
    day_ones := 2, day_tens := 1, month_ones := 7, month_tens := 0 }

/-! ### The clock tick of nixie.c -/

/-- The lookup array month_days of nixie.c, lines 177-179. -/
def month_days : List Nat :=
  [31, 28, 31, 30, 31, 30, 31, 31, 30, 31, 30, 31]

/-- A bounds-checked read of month_days at an int index: none outside 0..11. -/
def month_days_at (i : Int) : Option Nat :=
  if 0 ≤ i then month_days.get? i.toNat else none

/-- The function inc_time of nixie.c, lines 248-275, on the value of the global g_time; the
index of the array read is computed in int, and the result is none where it is out of
bounds. -/
def inc_time (g : time_t) : Option time_t :=
  let g1 : time_t := { g with seconds := (g.seconds + 1) % 256 }
  let g2 : time_t :=
    if 59 < g1.seconds then { g1 with minutes := (g1.minutes + 1) % 256, seconds := 0 } else g1
  let g3 : time_t :=
    if 59 < g2.minutes then { g2 with hours := (g2.hours + 1) % 256, minutes := 0 } else g2
  let g4 : time_t :=
    if 23 < g3.hours then { g3 with hours := 0, day := (g3.day + 1) % 256 } else g3
  match month_days_at ((g4.month : Int) - 1) with
  | none => none
  | some days =>
    let g5 : time_t :=
      if days < g4.day then { g4 with month := (g4.month + 1) % 256, day := 1 } else g4
    let g6 : time_t := if 12 < g5.month then { g5 with month := 1 } else g5
    some g6

/-- A valid time of the 365-day calendar, in the words of the specification: seconds and
minutes in 0..59, hours in 0..23, month in 1..12, day in 1..month_days[month-1]. -/
def valid_time (t : time_t) : Prop :=
  t.seconds ≤ 59 ∧ t.minutes ≤ 59 ∧ t.hours ≤ 23 ∧ 1 ≤ t.month ∧ t.month ≤ 12 ∧
  1 ≤ t.day ∧ t.day ≤ month_days.getD (t.month - 1) 0

instance valid_time_decidable (t : time_t) : Decidable (valid_time t) := by
  unfold valid_time; infer_instance

/-- The number of seconds from 1 January 00:00:00 to the given time in a 365-day year. -/
def second_of_year (t : time_t) : Nat :=
  ((((month_days.take (t.month - 1)).sum + (t.day - 1)) * 24 + t.hours) * 60 + t.minutes) * 60
    + t.seconds

/-! ### Invariants and states the theorems refer to -/

/-- All eight field accumulators are 0. -/
def accumulators_zero (s : State) : Prop :=
  s.minute_tens = 0 ∧ s.minute_ones = 0 ∧ s.hour_tens = 0 ∧ s.hour_ones = 0 ∧
  s.day_tens = 0 ∧ s.day_ones = 0 ∧ s.month_ones = 0 ∧ s.month_tens = 0

/-- The cursor holds the value dcf77_scrap stores or lies in 0..58. -/
def cursor_in_range (s : State) : Prop :=
  s.g_bit_index = to_u8 (-1) ∨ s.g_bit_index ≤ 58

/-- The decoder at cursor 58 with running parity 0, reached from power-on by a sync gap and
the first 58 bits of frame_18_59 with bit 21 inverted (a frame that gets through the checks
at 28 and 35 as the code makes them). -/
def at_58 : State := after_bits (flip_bit frame_18_59 21) 58

/-- A state whose last edge lies 5 ticks before the wrap of the 32-bit tick counter. -/
def near_wrap : State := { synced with g_last_flank := 4294967291 }

/-! ### The store of lines 55/57 outside g_buffer

The store addresses byte `g_bit_index << 3` from the start of g_buffer, which lies outside
the eight bytes for every cursor but 0. Which object that byte belongs to is decided by the
layout the build gives the statics, not by the source. `dcf77_add_bit` above is the decoder
in a layout where the byte belongs to none of the statics modelled here. The definitions
below repeat the entry points with the effect of such a store as a parameter: a function of
the offset, the update of the byte and the statics. -/

/-- The update that lines 55 and 57 apply to the byte they address. -/
def byte_update (i bit : Nat) (v : Nat) : Nat :=
  if bit ≠ 0 then (v ||| (1 <<< (i &&& 7))) % 256 else (v &&& (255 - (1 <<< (i &&& 7)))) % 256

/-- Lines 59-92, run on the statics as the store of lines 54-57 left them. -/
def after_store (s1 : State) (bit : Nat) : State :=
  let s2 : State := { s1 with g_parity := if s1.g_parity ≠ bit then 1 else 0 }
  let s3 : State := fold_field s2 bit
  let s4 : State :=
    if s3.g_bit_index = 28 ∨ s3.g_bit_index = 35 ∨ s3.g_bit_index = 58 then
      (if bit ≠ s3.g_parity then dcf77_scrap s3 else { s3 with g_parity := 0 })
    else s3
  let s5 : State := if 58 ≤ s4.g_bit_index then dcf77_scrap (decode s4) else s4
  { s5 with g_bit_index := (s5.g_bit_index + 1) % 256 }

/-- Lines 48-93, the store outside g_buffer having the effect stray on the statics. -/
def dcf77_add_bit_with (stray : Nat → (Nat → Nat) → State → State) (s : State) (bit : Nat) :
    State :=
  if (s.g_bit_index : Int) = -1 then s
  else
    after_store
      (match buffer_write s.g_buffer s.g_bit_index bit with
       | some buf => { s with g_buffer := buf }
       | none => stray (s.g_bit_index <<< 3) (byte_update s.g_bit_index bit) s)
      bit

/-- Lines 96-109 over dcf77_add_bit_with. -/
def on_rising_flank_with (stray : Nat → (Nat → Nat) → State → State) (s : State) (time : Nat) :
    State :=
  let s1 : State :=
    if (s.g_bit_index : Int) ≠ -1 then
      let time_low := sub_u32 time s.g_last_flank
      if 7 < time_low ∧ time_low < 13 then dcf77_add_bit_with stray s 0
      else if 17 < time_low ∧ time_low < 23 then dcf77_add_bit_with stray s 1
      else dcf77_scrap s
    else s
  { s1 with g_last_flank := time }

/-- Lines 121-129 over on_rising_flank_with. -/
def dcf77_update_with (stray : Nat → (Nat → Nat) → State → State) (s : State)
    (signal time : Nat) : State :=
  let s1 : State :=
    if s.g_last = 0 ∧ signal ≠ 0 then on_rising_flank_with stray s time
    else if s.g_last ≠ 0 ∧ signal = 0 then on_falling_flank s time
    else s
  { s1 with g_last := signal }

/-- The effect of one call, the store outside g_buffer having the effect stray. -/
def apply_call_with (stray : Nat → (Nat → Nat) → State → State) (s : State) : Call → State
  | Call.update signal time => dcf77_update_with stray s signal time
  | Call.rising time => on_rising_flank_with stray s time
  | Call.falling time => on_falling_flank s time
  | Call.add bit => dcf77_add_bit_with stray s bit
  | Call.scrap => dcf77_scrap s

/-- The store that belongs to none of the statics of the decoder. -/
def no_alias_store (_offset : Nat) (_f : Nat → Nat) (s : State) : State := s

instance accumulators_zero_decidable (s : State) : Decidable (accumulators_zero s) := by
  unfold accumulators_zero; infer_instance

/-! ## Theorems -/

set_option maxRecDepth 1000000

/-- The chain of lines 61-76 does not touch the cursor. -/
theorem fold_field_g_bit_index (s : State) (bit : Nat) :
    (fold_field s bit).g_bit_index = s.g_bit_index := by
  unfold fold_field
  repeat' split
  all_goals rfl

/-- The value -1 stored into a uint8_t is 255. -/
theorem to_u8_neg_one : to_u8 (-1) = 255 := by decide

/-- After any call of dcf77_add_bit the cursor lies in 0..58: the increment of line 92 also
runs after dcf77_scrap and takes 255 to 0. -/
theorem dcf77_add_bit_cursor_le (s : State) (bit : Nat) :
    (dcf77_add_bit s bit).g_bit_index ≤ 58 := by
  have hne : ¬ ((s.g_bit_index : Int) = -1) := by omega
  simp only [dcf77_add_bit, hne, if_false, fold_field_g_bit_index]
  split_ifs <;> simp [dcf77_scrap, decode, fold_field_g_bit_index, to_u8_neg_one] at * <;> omega

/-- C1. The round trip evaluated on the code: frame_18_59 is a conforming frame for minute 59,
hour 18, day 12, month 7, and after a sync gap its 59 bits, fed through dcf77_add_bit or as
flank pairs, leave minutes, hours, day and month all 0 in the time object; the first 59
entries of the array of the _TEST main do the same. -/
theorem round_trip_on_frame_18_59 :
    conforming frame_18_59 59 18 12 7 ∧
    (feed_bits synced frame_18_59).time_obj = zero_time ∧
    (feed_pulses (init power_on_time) 200 frame_18_59).1.time_obj = zero_time ∧
    (feed_bits synced (test_bits.take 59)).time_obj = zero_time := by
  refine ⟨by decide, by decide, by decide, by decide⟩

/-- C2. Rising-edge classification: with the cursor in 0..58 and d the elapsed ticks modulo
2^32, on_rising_flank is dcf77_add_bit with bit 0 for d in 8..12 and with bit 1 for d in 18..22
(the timestamp being recorded as last edge); for every other d the cursor becomes the value
dcf77_scrap stores, which is the initial one, and nothing else but the last edge changes: the
time object, the log of decode, the buffer, the parity and the accumulators stay. -/
theorem on_rising_flank_classifies (s : State) (time : Nat) (hc : s.g_bit_index ≤ 58) :
    (8 ≤ sub_u32 time s.g_last_flank ∧ sub_u32 time s.g_last_flank ≤ 12 →
      on_rising_flank s time = { dcf77_add_bit s 0 with g_last_flank := time }) ∧
    (18 ≤ sub_u32 time s.g_last_flank ∧ sub_u32 time s.g_last_flank ≤ 22 →
      on_rising_flank s time = { dcf77_add_bit s 1 with g_last_flank := time }) ∧
    (¬ (8 ≤ sub_u32 time s.g_last_flank ∧ sub_u32 time s.g_last_flank ≤ 12) →
      ¬ (18 ≤ sub_u32 time s.g_last_flank ∧ sub_u32 time s.g_last_flank ≤ 22) →
      on_rising_flank s time
          = { s with g_bit_index := (dcf77_scrap s).g_bit_index, g_last_flank := time } ∧
        (dcf77_scrap s).g_bit_index = (init s.time_obj).g_bit_index) := by
  have hne : ¬ ((s.g_bit_index : Int) = -1) := by omega
  refine ⟨?_, ?_, ?_⟩
  · intro h
    have h1 : 7 < sub_u32 time s.g_last_flank ∧ sub_u32 time s.g_last_flank < 13 := by omega
    simp only [on_rising_flank, ne_eq, hne, not_false_eq_true, if_true, h1, and_self]
  · intro h
    have h1 : ¬ (7 < sub_u32 time s.g_last_flank ∧ sub_u32 time s.g_last_flank < 13) := by omega
    have h2 : 17 < sub_u32 time s.g_last_flank ∧ sub_u32 time s.g_last_flank < 23 := by omega
    simp only [on_rising_flank, ne_eq, hne, not_false_eq_true, if_true, h1, h2, and_self,
      if_false]
  · intro ha hb
    have h1 : ¬ (7 < sub_u32 time s.g_last_flank ∧ sub_u32 time s.g_last_flank < 13) := by omega
    have h2 : ¬ (17 < sub_u32 time s.g_last_flank ∧ sub_u32 time s.g_last_flank < 23) := by
      omega
    refine ⟨?_, rfl⟩
    simp only [on_rising_flank, ne_eq, hne, not_false_eq_true, if_true, h1, h2, if_false]
    rfl

/-- Witness of C2 at the synced decoder (cursor 0, last edge 200): a rising flank at 210 is a
short pulse and acts as dcf77_add_bit with bit 0. -/
theorem on_rising_flank_classifies_witness :
    synced.g_bit_index ≤ 58 ∧
    on_rising_flank synced 210 = { dcf77_add_bit synced 0 with g_last_flank := 210 } :=
  ⟨by decide, (on_rising_flank_classifies synced 210 (by decide)).1 (by decide)⟩

/-- C3. Sync-gap detection: with d the elapsed ticks modulo 2^32, on_falling_flank leaves the
cursor 0 when d is in 191..209 and leaves it as it was for every other d; it records the
timestamp as last edge and changes nothing else, so the time object and the log of decode
stay as they were. -/
theorem on_falling_flank_sync (s : State) (time : Nat) :
    on_falling_flank s time =
      { s with
        g_bit_index :=
          if 191 ≤ sub_u32 time s.g_last_flank ∧ sub_u32 time s.g_last_flank ≤ 209 then 0
          else s.g_bit_index,
        g_last_flank := time } ∧
    (on_falling_flank s time).time_obj = s.time_obj ∧
    (on_falling_flank s time).emitted = s.emitted := by
  by_cases h : 190 < sub_u32 time s.g_last_flank ∧ sub_u32 time s.g_last_flank < 210
  · have h1 : 191 ≤ sub_u32 time s.g_last_flank ∧ sub_u32 time s.g_last_flank ≤ 209 := by omega
    simp only [on_falling_flank, h, h1, and_self, if_true]
  · have h1 : ¬ (191 ≤ sub_u32 time s.g_last_flank ∧ sub_u32 time s.g_last_flank ≤ 209) := by
      omega
    simp only [on_falling_flank, h, h1, if_false, and_self]

/-- C4. Parity sensitivity evaluated on the code: for the conforming frame frame_18_59 and
every position p of the minute, hour and date groups, the frame with bit p inverted, fed after
a sync gap, makes decode write the time object (the log is not empty) and leaves the cursor
different from the value dcf77_scrap stores. -/
theorem flipped_frame_still_emits :
    conforming frame_18_59 59 18 12 7 ∧
    ∀ p ∈ group_positions,
      (feed_bits synced (flip_bit frame_18_59 p)).emitted ≠ [] ∧
      (feed_bits synced (flip_bit frame_18_59 p)).time_obj = zero_time ∧
      (feed_bits synced (flip_bit frame_18_59 p)).g_bit_index
        ≠ (dcf77_scrap synced).g_bit_index := by
  refine ⟨by decide, by decide⟩

/-- C5. Self-healing evaluated on the code: the power-on state and the state after a timing
fault in the middle of a frame have both written nothing yet and differ in g_parity; the same
sync gap (200 ticks after the last edge) followed by the same conforming frame makes decode
write twice from the first and once from the second, and ends with different cursors and
different parity accumulators. -/
theorem residual_parity_changes_next_frame :
    (init power_on_time).emitted = [] ∧ after_timing_fault.emitted = [] ∧
    (init power_on_time).g_parity = 0 ∧ after_timing_fault.g_parity = 1 ∧
    (on_falling_flank (init power_on_time) 200).g_bit_index = 0 ∧
    (on_falling_flank after_timing_fault 505).g_bit_index = 0 ∧
    (feed_bits (on_falling_flank (init power_on_time) 200) frame_18_59).emitted
      = [zero_time, zero_time] ∧
    (feed_bits (on_falling_flank after_timing_fault 505) frame_18_59).emitted = [zero_time] ∧
    (feed_bits (on_falling_flank (init power_on_time) 200) frame_18_59).g_bit_index = 1 ∧
    (feed_bits (on_falling_flank after_timing_fault 505) frame_18_59).g_bit_index = 0 ∧
    (feed_bits (on_falling_flank (init power_on_time) 200) frame_18_59).g_parity = 1 ∧
    (feed_bits (on_falling_flank after_timing_fault 505) frame_18_59).g_parity = 0 := by
  refine ⟨by decide, by decide, by decide, by decide, by decide, by decide, by decide,
    by decide, by decide, by decide, by decide, by decide⟩

/-- C6. Emission evaluated on the code: after a sync gap and the first 28 bits of frame_18_59
the cursor is 28, nothing has been written, and the next call of dcf77_add_bit (with the
parity bit 0 of the frame) makes decode write the time object; the same happens at cursor 35
and when the cursor holds the value dcf77_scrap stores. -/
theorem decode_fires_before_frame_end :
    (after_bits frame_18_59 28).g_bit_index = 28 ∧
    (after_bits frame_18_59 28).emitted = [] ∧
    (after_bits frame_18_59 28).time_obj = power_on_time ∧
    (dcf77_add_bit (after_bits frame_18_59 28) 0).emitted = [zero_time] ∧
    (dcf77_add_bit (after_bits frame_18_59 28) 0).time_obj = zero_time ∧
    (dcf77_add_bit { synced with g_bit_index := 35, g_parity := 1 } 0).emitted = [zero_time] ∧
    (dcf77_add_bit (dcf77_scrap synced) 0).emitted = [zero_time] := by
  refine ⟨by decide, by decide, by decide, by decide, by decide, by decide, by decide⟩

/-- C7. The idle guard evaluated on the code: in the power-on state the cursor holds the value
dcf77_scrap stores, and dcf77_add_bit with bit 0 changes the state: decode writes the time
object and the cursor is 0 afterwards. -/
theorem add_bit_runs_when_idle :
    (init power_on_time).g_bit_index = (dcf77_scrap (init power_on_time)).g_bit_index ∧
    dcf77_add_bit (init power_on_time) 0 ≠ init power_on_time ∧
    (dcf77_add_bit (init power_on_time) 0).g_bit_index = 0 ∧
    (dcf77_add_bit (init power_on_time) 0).time_obj = zero_time ∧
    (dcf77_add_bit (init power_on_time) 0).emitted = [zero_time] := by
  refine ⟨by decide, by decide, by decide, by decide, by decide⟩

/-- C8. The parity check evaluated on the code at cursor 28. With running parity 1 the bit 1
(equal to the parity) is not accepted: the frame is scrapped, decode fires and the cursor ends
at 0 instead of 29. With running parity 0 the bit 1 (different from the parity) is accepted:
the cursor goes on to 29 and the parity accumulator is cleared. -/
theorem parity_check_compares_updated_parity :
    (after_bits frame_18_59 28).g_bit_index = 28 ∧
    (after_bits frame_18_59 28).g_parity = 1 ∧
    (dcf77_add_bit (after_bits frame_18_59 28) 1).g_bit_index = 0 ∧
    (dcf77_add_bit (after_bits frame_18_59 28) 1).emitted = [zero_time] ∧
    (after_bits (flip_bit frame_18_59 21) 28).g_bit_index = 28 ∧
    (after_bits (flip_bit frame_18_59 21) 28).g_parity = 0 ∧
    (dcf77_add_bit (after_bits (flip_bit frame_18_59 21) 28) 1).g_bit_index = 29 ∧
    (dcf77_add_bit (after_bits (flip_bit frame_18_59 21) 28) 1).g_parity = 0 ∧
    (dcf77_add_bit (after_bits (flip_bit frame_18_59 21) 28) 1).emitted = [] := by
  refine ⟨by decide, by decide, by decide, by decide, by decide, by decide, by decide,
    by decide, by decide⟩

/-- C9. Field folding evaluated on the code: add_bit with bit 1 and width 4 yields 0 from 0 and
0 from 15, not 8 and 15; and the four bits 1,0,0,1 of the digit 9, accepted by dcf77_add_bit at
cursor 21..24, leave minute_ones 0. -/
theorem add_bit_intersects :
    add_bit 0 1 4 = 0 ∧ add_bit 15 1 4 = 0 ∧
    (after_bits frame_18_59 21).g_bit_index = 21 ∧
    (feed_bits (after_bits frame_18_59 21) [1, 0, 0, 1]).g_bit_index = 25 ∧
    (feed_bits (after_bits frame_18_59 21) [1, 0, 0, 1]).minute_ones = 0 ∧
    bits_value [1, 0, 0, 1] 0 4 = 9 := by
  refine ⟨by decide, by decide, by decide, by decide, by decide, by decide⟩

/-- C10. Decode formula: with every accumulator within its field width, decode stores
tens*10 + ones for minutes, hours, day and month, none of them reduced modulo 256, and leaves
the accumulators, the parity and the cursor as they were. -/
theorem decode_formula (s : State)
    (h1 : s.minute_ones < 16) (h2 : s.minute_tens < 8) (h3 : s.hour_ones < 16)
    (h4 : s.hour_tens < 4) (h5 : s.day_ones < 16) (h6 : s.day_tens < 4)
    (h7 : s.month_ones < 16) (h8 : s.month_tens < 2) :
    (decode s).time_obj.minutes = s.minute_tens * 10 + s.minute_ones ∧
    (decode s).time_obj.hours = s.hour_tens * 10 + s.hour_ones ∧
    (decode s).time_obj.day = s.day_tens * 10 + s.day_ones ∧
    (decode s).time_obj.month = s.month_tens * 10 + s.month_ones ∧
    (decode s).minute_ones = s.minute_ones ∧ (decode s).minute_tens = s.minute_tens ∧
    (decode s).hour_ones = s.hour_ones ∧ (decode s).hour_tens = s.hour_tens ∧
    (decode s).day_ones = s.day_ones ∧ (decode s).day_tens = s.day_tens ∧
    (decode s).month_ones = s.month_ones ∧ (decode s).month_tens = s.month_tens ∧
    (decode s).g_parity = s.g_parity ∧ (decode s).g_bit_index = s.g_bit_index := by
  refine ⟨?_, ?_, ?_, ?_, rfl, rfl, rfl, rfl, rfl, rfl, rfl, rfl, rfl, rfl⟩
  · show (s.minute_tens * 10 + s.minute_ones) % 256 = _
    omega
  · show (s.hour_tens * 10 + s.hour_ones) % 256 = _
    omega
  · show (s.day_tens * 10 + s.day_ones) % 256 = _
    omega
  · show (s.month_tens * 10 + s.month_ones) % 256 = _
    omega

/-- Witness of C10 at accumulators holding the digits of 18:59 on 12 July. -/
theorem decode_formula_witness :
    (decode digits_18_59).time_obj.minutes = 5 * 10 + 9 ∧
    (decode digits_18_59).time_obj.hours = 1 * 10 + 8 :=
  ⟨(decode_formula digits_18_59 (by decide) (by decide) (by decide) (by decide) (by decide)
      (by decide) (by decide) (by decide)).1,
   (decode_formula digits_18_59 (by decide) (by decide) (by decide) (by decide) (by decide)
      (by decide) (by decide) (by decide)).2.1⟩

/-- An invariant kept by every call holds after every sequence of calls. -/
theorem run_calls_invariant (P : State → Prop)
    (hstep : ∀ s c, P s → P (apply_call s c)) :
    ∀ (cs : List Call) (s : State), P s → P (run_calls s cs) := by
  intro cs
  induction cs with
  | nil => intro s h; exact h
  | cons c cs ih => intro s h; exact ih _ (hstep s c h)

/-- Every call keeps the cursor at the value dcf77_scrap stores or in 0..58. -/
theorem apply_call_cursor_in_range (s : State) (c : Call) (h : cursor_in_range s) :
    cursor_in_range (apply_call s c) := by
  have hadd : ∀ b, cursor_in_range (dcf77_add_bit s b) :=
    fun b => Or.inr (dcf77_add_bit_cursor_le s b)
  have hrise : ∀ time, cursor_in_range (on_rising_flank s time) := by
    intro time
    simp only [on_rising_flank]
    split_ifs
    · exact hadd 0
    · exact hadd 1
    · exact Or.inl rfl
    · exact h
  have hfall : ∀ time, cursor_in_range (on_falling_flank s time) := by
    intro time
    simp only [on_falling_flank]
    split_ifs
    · exact Or.inr (Nat.zero_le 58)
    · exact h
  cases c with
  | update signal time =>
    simp only [apply_call, dcf77_update]
    split_ifs
    · exact hrise time
    · exact hfall time
    · exact h
  | rising time => exact hrise time
  | falling time => exact hfall time
  | add bit => exact hadd bit
  | scrap => exact Or.inl rfl

/-- The decoder dcf77_add_bit is dcf77_add_bit_with for the store that belongs to none of
the statics. -/
theorem dcf77_add_bit_with_no_alias (s : State) (bit : Nat) :
    dcf77_add_bit_with no_alias_store s bit = dcf77_add_bit s bit := by
  have hne : ¬ ((s.g_bit_index : Int) = -1) := by omega
  simp only [dcf77_add_bit_with, dcf77_add_bit, hne, if_false]
  cases hb : buffer_write s.g_buffer s.g_bit_index bit with
  | some buf => rfl
  | none =>
    obtain ⟨a1, a2, a3, a4, a5, a6, a7, a8, a9, a10, a11, a12, a13, a14, a15⟩ := s
    rfl

/-- The calls of the decoder are those of the parametric decoder for the store that belongs
to none of the statics. -/
theorem apply_call_with_no_alias (s : State) (c : Call) :
    apply_call_with no_alias_store s c = apply_call s c := by
  cases c with
  | update signal time =>
    simp only [apply_call_with, apply_call, dcf77_update_with, dcf77_update,
      on_rising_flank_with, on_rising_flank, dcf77_add_bit_with_no_alias]
  | rising time =>
    simp only [apply_call_with, apply_call, on_rising_flank_with, on_rising_flank,
      dcf77_add_bit_with_no_alias]
  | falling time => rfl
  | add bit => exact dcf77_add_bit_with_no_alias s bit
  | scrap => rfl

/-- The difference of two 32-bit timestamps is the elapsed tick count, also across the wrap. -/
theorem sub_u32_wrap (l d : Nat) (hd : d < 4294967296) :
    sub_u32 ((l + d) % 4294967296) l = d := by
  unfold sub_u32
  omega

/-- Inside 1..12 the array read of inc_time is in bounds and yields the entry of the month. -/
theorem month_days_at_eq (mo : Nat) (h4 : 1 ≤ mo) (h5 : mo ≤ 12) :
    month_days_at ((mo : Int) - 1) = some (month_days.getD (mo - 1) 0) := by
  interval_cases mo <;> decide

/-- The days before a month and the days of the month add up to the days before the next
one, at most 365; every month has 28 to 31 days. -/
theorem days_before_succ (mo : Nat) (h4 : 1 ≤ mo) (h5 : mo ≤ 12) :
    (month_days.take mo).sum = (month_days.take (mo - 1)).sum + month_days.getD (mo - 1) 0 ∧
    (month_days.take 12).sum = 365 ∧ 28 ≤ month_days.getD (mo - 1) 0 ∧
    month_days.getD (mo - 1) 0 ≤ 31 ∧
    (month_days.take (mo - 1)).sum + month_days.getD (mo - 1) 0 ≤ 365 := by
  interval_cases mo <;> decide

/-- C11. Output ranges evaluated on the code: from power-on, a sync gap and the 59 bits of the
conforming frame frame_18_59 (day 12, month 7) make decode write twice, each time with day 0
and month 0, below the ranges 1..31 and 1..12. -/
theorem emitted_day_and_month_are_zero :
    conforming frame_18_59 59 18 12 7 ∧
    (run_calls (init power_on_time) (Call.falling 200 :: frame_18_59.map Call.add)).emitted
      = [zero_time, zero_time] ∧
    zero_time.day = 0 ∧ zero_time.month = 0 ∧ ¬ (1 ≤ zero_time.day) ∧ ¬ (1 ≤ zero_time.month) := by
  refine ⟨by decide, by decide, by decide, by decide, by decide, by decide⟩

/-- C12. Frame completion evaluated on the code: at cursor 58 with running parity 0 the bit 0
passes the check and decode fires once, but the cursor afterwards is 0, not the value 255 that
dcf77_scrap stores, and the next bit is not ignored: it is taken as position 0 of a frame. -/
theorem cursor_after_completed_frame :
    at_58.g_bit_index = 58 ∧ at_58.g_parity = 0 ∧ at_58.emitted = [] ∧
    (dcf77_add_bit at_58 0).emitted = [zero_time] ∧
    (dcf77_add_bit at_58 0).g_bit_index = 0 ∧
    (dcf77_scrap at_58).g_bit_index = 255 ∧
    (dcf77_add_bit (dcf77_add_bit at_58 0) 1).g_bit_index = 1 ∧
    (dcf77_add_bit (dcf77_add_bit at_58 0) 1).g_parity = 1 := by
  refine ⟨by decide, by decide, by decide, by decide, by decide, by decide, by decide,
    by decide⟩

/-- C13. Cursor range invariant: after every sequence of dcf77_update, on_rising_flank,
on_falling_flank, dcf77_add_bit and dcf77_scrap calls from the initial state, with any
arguments, g_bit_index is the value dcf77_scrap stores or lies in 0..58; it is below 256. -/
theorem cursor_range_invariant (t : time_t) (cs : List Call) :
    ((run_calls (init t) cs).g_bit_index = (dcf77_scrap (init t)).g_bit_index ∨
      (run_calls (init t) cs).g_bit_index ≤ 58) ∧
    (run_calls (init t) cs).g_bit_index < 256 := by
  have h : cursor_in_range (run_calls (init t) cs) :=
    run_calls_invariant cursor_in_range apply_call_cursor_in_range cs (init t) (Or.inl rfl)
  refine ⟨h, ?_⟩
  rcases h with h | h
  · rw [h, to_u8_neg_one]; decide
  · omega

/-- C14. The parity compared at position 28, evaluated on the code: after a sync gap from
power-on and the first 28 bits of frame_18_59 the running parity is 1, the XOR of positions
0..27, while the XOR of positions 21..27 is 0; inverting bit 20, outside the group, turns it
to 0, and so does the parity 1 left behind by a scrapped frame. -/
theorem parity_at_28_covers_earlier_bits :
    (after_bits frame_18_59 28).g_bit_index = 28 ∧
    (after_bits frame_18_59 28).g_parity = 1 ∧
    xor_range frame_18_59 21 27 = 0 ∧ xor_range frame_18_59 0 27 = 1 ∧
    xor_range (flip_bit frame_18_59 20) 21 27 = 0 ∧
    (after_bits (flip_bit frame_18_59 20) 28).g_parity = 0 ∧
    (on_falling_flank after_timing_fault 505).g_bit_index = 0 ∧
    (feed_bits (on_falling_flank after_timing_fault 505) (frame_18_59.take 28)).g_parity = 0 := by
  refine ⟨by decide, by decide, by decide, by decide, by decide, by decide, by decide,
    by decide⟩

/-- C15. Buffer indexing evaluated on the code: the store addresses byte (i shifted left by 3),
which is inside the eight bytes of g_buffer for cursor 0 only; for every cursor 1..58 and
either bit the bounds-checked store is out of range, and a 1 accepted at cursor 9 leaves the
eight bytes unchanged instead of setting bit 1 of byte 1. -/
theorem buffer_store_out_of_range :
    buffer_write (init power_on_time).g_buffer 0 1 = some [1, 0, 0, 0, 0, 0, 0, 0] ∧
    (∀ i ∈ List.range 59, 1 ≤ i →
      ∀ bit ∈ [0, 1], buffer_write (init power_on_time).g_buffer i bit = none) ∧
    (after_bits frame_18_59 9).g_bit_index = 9 ∧
    (after_bits frame_18_59 9).g_buffer = [0, 0, 0, 0, 0, 0, 0, 0] ∧
    (dcf77_add_bit (after_bits frame_18_59 9) 1).g_buffer = [0, 0, 0, 0, 0, 0, 0, 0] := by
  refine ⟨by decide, by decide, by decide, by decide, by decide⟩

/-- C16, as stated, fails: decode run in the power-on state leaves 58 in the seconds field,
not 0, and so does the first call of dcf77_add_bit after power-on, in which decode fires. -/
theorem decode_seconds_not_zero :
    (decode (init power_on_time)).time_obj.seconds = 58 ∧
    (decode (init power_on_time)).time_obj.seconds ≠ 0 ∧
    (dcf77_add_bit (init power_on_time) 0).emitted = [zero_time] ∧
    (dcf77_add_bit (init power_on_time) 0).time_obj.seconds = 58 ∧
    (dcf77_add_bit (init power_on_time) 0).time_obj.seconds ≠ 0 := by
  refine ⟨by decide, by decide, by decide, by decide, by decide⟩

/-- C16, amended. Every time decode fires, the seconds field of the time object is 58
afterwards, while minutes, hours, day and month take tens*10 + ones of their accumulators
(as stored in a uint8_t); the value is the one logged. -/
theorem decode_seconds_is_58 (s : State) :
    (decode s).time_obj.seconds = 58 ∧
    (decode s).time_obj.minutes = (s.minute_tens * 10 + s.minute_ones) % 256 ∧
    (decode s).time_obj.hours = (s.hour_tens * 10 + s.hour_ones) % 256 ∧
    (decode s).time_obj.day = (s.day_tens * 10 + s.day_ones) % 256 ∧
    (decode s).time_obj.month = (s.month_tens * 10 + s.month_ones) % 256 ∧
    (decode s).emitted = s.emitted ++ [(decode s).time_obj] :=
  ⟨rfl, rfl, rfl, rfl, rfl, rfl⟩

/-- C17. Edge dispatch: dcf77_update acts as on_rising_flank when the stored level is 0 and the
signal is not, as on_falling_flank when the stored level is not 0 and the signal is, and
otherwise changes nothing; in every case the stored level becomes the signal, and the last
edge is the timestamp exactly when one of the two handlers ran. -/
theorem dcf77_update_dispatch (s : State) (signal time : Nat) :
    dcf77_update s signal time =
      (if s.g_last = 0 ∧ signal ≠ 0 then { on_rising_flank s time with g_last := signal }
       else if s.g_last ≠ 0 ∧ signal = 0 then { on_falling_flank s time with g_last := signal }
       else { s with g_last := signal }) ∧
    (dcf77_update s signal time).g_last = signal ∧
    (dcf77_update s signal time).g_last_flank =
      (if (s.g_last = 0 ∧ signal ≠ 0) ∨ (s.g_last ≠ 0 ∧ signal = 0) then time
       else s.g_last_flank) := by
  refine ⟨?_, rfl, ?_⟩
  · simp only [dcf77_update]
    split_ifs <;> rfl
  · simp only [dcf77_update]
    by_cases h1 : s.g_last = 0 ∧ signal ≠ 0
    · rw [if_pos h1, if_pos (Or.inl h1)]
      rfl
    · by_cases h2 : s.g_last ≠ 0 ∧ signal = 0
      · rw [if_neg h1, if_pos h2, if_pos (Or.inr h2)]
        rfl
      · rw [if_neg h1, if_neg h2, if_neg (not_or.mpr ⟨h1, h2⟩)]

/-- C18. Clock tick: on every valid time inc_time returns a time, that time is valid, and its
second of the year is the second of the year of the input plus 1 modulo 365*86400. -/
theorem inc_time_next_second (t : time_t) (h : valid_time t) :
    ∃ u, inc_time t = some u ∧ valid_time u ∧
      second_of_year u = (second_of_year t + 1) % (365 * 86400) := by
  obtain ⟨mo, d, hh, mi, se⟩ := t
  obtain ⟨h1, h2, h3, h4, h5, h6, h7⟩ := h
  simp only at h1 h2 h3 h4 h5 h6 h7
  have hmd := month_days_at_eq mo h4 h5
  obtain ⟨hb1, hb2, hb3, hb4, hb5⟩ := days_before_succ mo h4 h5
  have hz : (month_days.take 0).sum = 0 := by decide
  have hj : month_days.getD 0 0 = 31 := by decide
  generalize hmdv : month_days.getD (mo - 1) 0 = md at hmd hb1 hb3 hb4 hb5 h7
  generalize hdb : (month_days.take (mo - 1)).sum = db at hb1 hb5
  have e1 : ∀ x : Nat, x ≤ 59 → (x + 1) % 256 = x + 1 := fun x hx => by omega
  simp only [inc_time, e1 se h1]
  by_cases cs : 59 < se + 1
  · simp only [cs, if_true, e1 mi h2]
    by_cases cm : 59 < mi + 1
    · simp only [cm, if_true, e1 hh (by omega)]
      by_cases ch : 23 < hh + 1
      · simp only [ch, if_true, hmd, e1 d (by omega)]
        by_cases cd : md < d + 1
        · simp only [cd, if_true, e1 mo (by omega)]
          by_cases cmo : 12 < mo + 1
          · simp only [cmo, if_true]
            refine ⟨_, rfl, ?_, ?_⟩
            · simp only [valid_time, Nat.sub_self, hj]; omega
            · have hmo : mo = 12 := by omega
              subst hmo
              simp only [second_of_year, Nat.sub_self, hz, hdb]
              omega
          · simp only [cmo, if_false]
            refine ⟨_, rfl, ?_, ?_⟩
            · have hn := (days_before_succ (mo + 1) (by omega) (by omega)).2.2.1
              simp only [valid_time]
              omega
            · obtain ⟨-, -, hn3, -, hn5⟩ := days_before_succ (mo + 1) (by omega) (by omega)
              simp only [Nat.add_sub_cancel, hb1] at hn3 hn5
              simp only [second_of_year, Nat.add_sub_cancel, hb1, hdb]
              have hlt : ((((db + (d - 1)) * 24 + hh) * 60 + mi) * 60 + se + 1) < 365 * 86400 := by
                omega
              rw [Nat.mod_eq_of_lt hlt]
              omega
        · have hmo : ¬ 12 < mo := by omega
          simp only [cd, if_false, hmo]
          refine ⟨_, rfl, ?_, ?_⟩
          · simp only [valid_time, hmdv]; omega
          · simp only [second_of_year, Nat.add_sub_cancel, hdb]
            have hlt : ((((db + (d - 1)) * 24 + hh) * 60 + mi) * 60 + se + 1) < 365 * 86400 := by
              omega
            rw [Nat.mod_eq_of_lt hlt]
            omega
      · have hd : ¬ md < d := by omega
        have hmo : ¬ 12 < mo := by omega
        simp only [ch, if_false, hmd, hd, hmo]
        refine ⟨_, rfl, ?_, ?_⟩
        · simp only [valid_time, hmdv]; omega
        · simp only [second_of_year, hdb]
          have hlt : ((((db + (d - 1)) * 24 + hh) * 60 + mi) * 60 + se + 1) < 365 * 86400 := by
            omega
          rw [Nat.mod_eq_of_lt hlt]
          omega
    · have hh' : ¬ 23 < hh := by omega
      have hd : ¬ md < d := by omega
      have hmo : ¬ 12 < mo := by omega
      simp only [cm, if_false, hh', hmd, hd, hmo]
      refine ⟨_, rfl, ?_, ?_⟩
      · simp only [valid_time, hmdv]; omega
      · simp only [second_of_year, hdb]
        have hlt : ((((db + (d - 1)) * 24 + hh) * 60 + mi) * 60 + se + 1) < 365 * 86400 := by
          omega
        rw [Nat.mod_eq_of_lt hlt]
        omega
  · have hm' : ¬ 59 < mi := by omega
    have hh' : ¬ 23 < hh := by omega
    have hd : ¬ md < d := by omega
    have hmo : ¬ 12 < mo := by omega
    simp only [cs, if_false, hm', hh', hmd, hd, hmo]
    refine ⟨_, rfl, ?_, ?_⟩
    · simp only [valid_time, hmdv]; omega
    · simp only [second_of_year, hdb]
      have hlt : ((((db + (d - 1)) * 24 + hh) * 60 + mi) * 60 + se + 1) < 365 * 86400 := by
        omega
      rw [Nat.mod_eq_of_lt hlt]
      omega

/-- Witness of C18 at 31 December 23:59:59, which becomes 1 January 00:00:00. -/
theorem inc_time_next_second_witness :
    valid_time { month := 12, day := 31, hours := 23, minutes := 59, seconds := 59 } ∧
    ∃ u, inc_time { month := 12, day := 31, hours := 23, minutes := 59, seconds := 59 } = some u ∧
      valid_time u ∧
      second_of_year u =
        (second_of_year { month := 12, day := 31, hours := 23, minutes := 59, seconds := 59 } + 1)
          % (365 * 86400) :=
  ⟨by decide, inc_time_next_second _ (by decide)⟩

/-- C20. Interval measurement across the wrap of the tick counter: when the timestamp is the
last edge plus d modulo 2^32, with d below 2^32, on_rising_flank takes a short pulse exactly
for d in 8..12 and a long pulse exactly for d in 18..22, and on_falling_flank a sync gap
exactly for d in 191..209, whether or not the timestamp is below the last edge. -/
theorem interval_across_wrap (s : State) (d : Nat) (hd : d < 4294967296) :
    sub_u32 ((s.g_last_flank + d) % 4294967296) s.g_last_flank = d ∧
    on_rising_flank s ((s.g_last_flank + d) % 4294967296) =
      (if 8 ≤ d ∧ d ≤ 12 then
        { dcf77_add_bit s 0 with g_last_flank := (s.g_last_flank + d) % 4294967296 }
       else if 18 ≤ d ∧ d ≤ 22 then
        { dcf77_add_bit s 1 with g_last_flank := (s.g_last_flank + d) % 4294967296 }
       else { dcf77_scrap s with g_last_flank := (s.g_last_flank + d) % 4294967296 }) ∧
    on_falling_flank s ((s.g_last_flank + d) % 4294967296) =
      { s with
        g_bit_index := if 191 ≤ d ∧ d ≤ 209 then 0 else s.g_bit_index,
        g_last_flank := (s.g_last_flank + d) % 4294967296 } := by
  have hw := sub_u32_wrap s.g_last_flank d hd
  have hne : ¬ ((s.g_bit_index : Int) = -1) := by omega
  refine ⟨hw, ?_, ?_⟩
  · simp only [on_rising_flank, hw, ne_eq, hne, not_false_eq_true, if_true]
    by_cases h1 : 8 ≤ d ∧ d ≤ 12
    · have h1' : 7 < d ∧ d < 13 := by omega
      simp only [h1, h1', and_self, if_true]
    · have h1' : ¬ (7 < d ∧ d < 13) := by omega
      by_cases h2 : 18 ≤ d ∧ d ≤ 22
      · have h2' : 17 < d ∧ d < 23 := by omega
        simp only [h1, h1', h2, h2', and_self, if_true, if_false]
      · have h2' : ¬ (17 < d ∧ d < 23) := by omega
        simp only [h1, h1', h2, h2', if_false]
  · simp only [on_falling_flank, hw]
    by_cases h1 : 191 ≤ d ∧ d ≤ 209
    · have h1' : 190 < d ∧ d < 210 := by omega
      simp only [h1, h1', and_self, if_true]
    · have h1' : ¬ (190 < d ∧ d < 210) := by omega
      simp only [h1, h1', if_false]

/-- Witness of C20: the last edge is 5 ticks before the wrap and the rising flank comes 10
ticks later, at timestamp 5; it is taken as a short pulse. -/
theorem interval_across_wrap_witness :
    (10 : Nat) < 4294967296 ∧
    (near_wrap.g_last_flank + 10) % 4294967296 = 5 ∧ 5 < near_wrap.g_last_flank ∧
    on_rising_flank near_wrap ((near_wrap.g_last_flank + 10) % 4294967296) =
      { dcf77_add_bit near_wrap 0 with
        g_last_flank := (near_wrap.g_last_flank + 10) % 4294967296 } :=
  ⟨by decide, by decide, by decide,
    ((interval_across_wrap near_wrap 10 (by decide)).2.1).trans (if_pos ⟨by decide, by decide⟩)⟩

end Dcf77
